import Mathlib

/-!
# c11lang.cpp: the variadic printers

A shallow embedding of the printing functions of `c11lang.cpp`
(`print` / `tupple_apply`, `MyFnImpl` / `MyFn`, `Expando`, `VariadicFun`,
`CVarTem::VarArg`, `VariadicTemplate`) and the properties of their output.

`std::cout` is modelled by the text written to it so far (`Sink`); a function
returning `void` that writes to `std::cout` becomes a function `Sink → Sink`.
The stream keeps its default formatting flags throughout: no function of the
program uses a manipulator other than `std::endl`.

A parameter pack is modelled by the list of its values, each value tagged with
its C++ type (`Value`); the overload of `operator<<` selected for that type is
`Value.render`.
-/

namespace C11Lang

/-! ## Values and their insertion into a stream -/

/-- A value of the C++ type `double`: the finite value `(-1)^neg * m * 2^e`,
an infinity, or a NaN. -/
inductive Double where
  | finite (neg : Bool) (m : Nat) (e : Int)
  | inf (neg : Bool)
  | nan (neg : Bool)
  deriving DecidableEq, Repr

/-- Least `k` from the given start with `den ≤ num * 10^k`, looking at no more
than `fuel` candidates. -/
def scaleUp (num den : Nat) : Nat → Nat → Nat
  | 0, k => k
  | fuel + 1, k => if den ≤ num * 10 ^ k then k else scaleUp num den fuel (k + 1)

/-- The decimal exponent of the positive rational `num / den`: the `x` with
`10^x ≤ num / den < 10^(x+1)`. -/
def floorLog10 (num den : Nat) : Int :=
  if den ≤ num then ((Nat.toDigits 10 (num / den)).length : Int) - 1
  else -(scaleUp num den den 1 : Int)

/-- Quotient `n / d` rounded to the nearest integer, ties to even. -/
def roundDiv (n d : Nat) : Nat :=
  if d < 2 * (n % d) ∨ (2 * (n % d) = d ∧ (n / d) % 2 = 1) then n / d + 1 else n / d

/-- The six significant decimal digits (as a number in `[100000, 999999]`) and
the decimal exponent of `num / den` after rounding to six digits. -/
def sixDigits (num den : Nat) : Nat × Int :=
  let x0 := floorLog10 num den
  let r := if x0 ≤ 5 then roundDiv (num * 10 ^ (5 - x0).toNat) den
           else roundDiv num (den * 10 ^ (x0 - 5).toNat)
  if r = 1000000 then (100000, x0 + 1) else (r, x0)

/-- Removes the zeros at the end of a digit string. -/
def stripZeros (ds : List Char) : List Char :=
  (ds.reverse.dropWhile (fun c => c == '0')).reverse

/-- Integer part and fraction digits put together the way `%g` does without
the `#` flag: trailing zeros of the fraction are dropped, and the decimal point
too when no fraction digit is left. -/
def withFraction (ip fr : List Char) : List Char :=
  if (stripZeros fr).isEmpty then ip else ip ++ '.' :: stripZeros fr

/-- The conversion `%g` with precision 6 of the positive rational `num / den`:
with `x` the decimal exponent after rounding to six significant digits, fixed
notation when `-4 ≤ x < 6` and exponent notation (exponent of at least two
digits) otherwise. -/
def fmtG (num den : Nat) : List Char :=
  let dx := sixDigits num den
  let ds := Nat.toDigits 10 dx.1
  let x := dx.2
  if -4 ≤ x ∧ x < 6 then
    if 0 ≤ x then withFraction (ds.take (x.toNat + 1)) (ds.drop (x.toNat + 1))
    else withFraction ['0'] (List.replicate ((-x).toNat - 1) '0' ++ ds)
  else
    withFraction (ds.take 1) (ds.drop 1) ++
      'e' :: (if x < 0 then '-' else '+') ::
        (if x.natAbs < 10 then '0' :: Nat.toDigits 10 x.natAbs else Nat.toDigits 10 x.natAbs)

/-- The sign that precedes a negative number. -/
def signText (neg : Bool) : String := if neg then "-" else ""

/-- Text inserted by `std::cout << b` for a `double` under the stream's default
flags: the conversion `%g` with precision 6 of the exact value, with the C
library's `inf` and `nan` for the values that are not finite. -/
def Double.render : Double → String
  | .finite neg m e =>
    if m = 0 then signText neg ++ "0"
    else if 0 ≤ e then signText neg ++ String.mk (fmtG (m * 2 ^ e.toNat) 1)
    else signText neg ++ String.mk (fmtG m (2 ^ (-e).toNat))
  | .inf neg => signText neg ++ "inf"
  | .nan neg => signText neg ++ "nan"

/-- Text inserted by `std::cout << a` for an `int`: its decimal numeral. -/
def intText : Int → String
  | .ofNat n => Nat.repr n
  | .negSucc n => "-" ++ Nat.repr (n + 1)

/-- The characters of a character array up to its first NUL: what
`std::string(const char*)` copies and what `std::cout << (const char*)`
inserts. -/
def cText (s : String) : String := String.mk (s.data.takeWhile (fun c => c != '\x00'))

/-- A printable value, tagged with its C++ type. `cstr s` is a `const char*`
to an array holding the characters of `s` followed by the terminating NUL (a
string literal); `string s` is a `std::string`. -/
inductive Value where
  | int (n : Int)
  | double (d : Double)
  | char (c : Char)
  | cstr (s : String)
  | string (s : String)
  deriving DecidableEq, Repr

/-- The text inserted by `std::cout << v`. -/
def Value.render : Value → String
  | .int n => intText n
  | .double d => d.render
  | .char c => String.singleton c
  | .cstr s => cText s
  | .string s => s

/-- The text written to `std::cout` so far. -/
abbrev Sink := String

/-- The character written by `std::endl`. -/
def endl : String := "\n"

/-- The `double` nearest to the literal `3.14`: `7070651414971679 / 2^51`. -/
def lit_3_14 : Double := .finite false 7070651414971679 (-51)

/-! ## Tuples with `std::apply` -/

/-- Source: `void print(int a, double b, const std::string& c)`
(`std::cout << a << ", " << b << ", " << c << std::endl;`). -/
def print (a : Int) (b : Double) (c : String) (cout : Sink) : Sink :=
  cout ++ intText a ++ ", " ++ b.render ++ ", " ++ c ++ endl

/-- The call `std::apply(f, t)` on a tuple of three elements:
`f(std::get<0>(t), std::get<1>(t), std::get<2>(t))`. -/
def apply {α β γ δ : Type} (f : α → β → γ → δ) (t : α × β × γ) : δ :=
  f t.1 t.2.1 t.2.2

/-- Source: `tupple_apply`. The tuple is a `std::tuple<int, double, const char*>`;
the call of `print` converts its third element to a `std::string`. -/
def tupple_apply (cout : Sink) : Sink :=
  let tup : Int × Double × String := (42, lit_3_14, "hello")
  apply (fun a b c => print a b (cText c)) tup cout

/-! ## Variadic arguments -/

/-- Source: `template <typename T> void MyFnImpl(T param)`. -/
def MyFnImpl (param : Value) (cout : Sink) : Sink :=
  let p := param
  cout ++ p.render ++ ";"

/-- Source: the two overloads of `MyFn`. The non-recursive one (empty pack)
writes `std::endl`; the recursive one passes its first value to `MyFnImpl` and
calls `MyFn` on the rest of the pack. -/
def MyFn : List Value → Sink → Sink
  | [], cout => cout ++ endl
  | value :: param, cout => MyFn param (MyFnImpl value cout)

/-- Source: `Expando`, the left fold `(std::cout << ... << args) << std::endl`. -/
def Expando (args : List Value) (cout : Sink) : Sink :=
  args.foldl (fun os a => os ++ a.render) cout ++ endl

/-- Source: `VariadicFun`. -/
def VariadicFun (cout : Sink) : Sink :=
  let cout := MyFn [.int 2, .double lit_3_14, .cstr "Four"] cout
  MyFn [.cstr "Hello", .char ' ', .cstr "World"] cout

/-! ## Variadic template -/

/-- Source: the data members of `CVarTem<T, P...>`; `m_tp` is the
`std::tuple<T, P...>`, held as the list of its elements. -/
structure CVarTem where
  m_t : Value
  m_tp : List Value
  deriving DecidableEq, Repr

/-- Source: `CVarTem(T i_t) : m_t(i_t) {}`. The constructor does not mention
`m_tp`, which is value-initialised; `zero` is the value-initialised
`std::tuple<T, P...>` of the instantiation. -/
def CVarTem.ctor (zero : List Value) (i_t : Value) : CVarTem :=
  { m_t := i_t, m_tp := zero }

/-- Source: `T VarArg(T i_t, P&... i_p)`. Gives the returned value, the object
after the call and the sink after the call. -/
def CVarTem.VarArg (self : CVarTem) (i_t : Value) (i_p : List Value) (cout : Sink) :
    Value × CVarTem × Sink :=
  let cout := MyFn (i_t :: i_p) cout
  let self := { self with m_tp := i_t :: i_p }
  (i_t, self, cout)

/-- Source: `VariadicTemplate`, with `Var = CVarTem<int, std::string>`. -/
def VariadicTemplate (cout : Sink) : Sink :=
  let v := CVarTem.ctor [.int 0, .string ""] (.int 0)
  let str := Value.string "hello"
  (v.VarArg (.int 1) [str] cout).2.2

/-! ## Specification-side notions -/

/-- A text that is exactly one line: it holds exactly one line terminator, and
that terminator is its last character. -/
def OneLine (t : String) : Prop :=
  t.data.count '\n' = 1 ∧ t.data.getLast? = some '\n'

instance (t : String) : Decidable (OneLine t) := by
  unfold OneLine; infer_instance

/-- Values whose type or content keeps a line terminator out of their text:
every `int` and `double`, and the characters and strings without a newline. -/
def Value.plain : Value → Bool
  | .int _ => true
  | .double _ => true
  | .char c => c != '\n'
  | .cstr s => !(cText s).data.contains '\n'
  | .string s => !s.data.contains '\n'

/-- The line one call of `MyFn` appends, as a function of the arguments. -/
def lineOf (args : List Value) : String :=
  String.join (args.map fun v => v.render ++ ";") ++ "\n"

/-! ## Closed forms of the printers -/

theorem join_cons (a : String) (l : List String) :
    String.join (a :: l) = a ++ String.join l := by
  apply String.ext
  simp [String.data_join]

theorem MyFnImpl_eq (param : Value) (cout : Sink) :
    MyFnImpl param cout = cout ++ (param.render ++ ";") := by
  simp [MyFnImpl, String.append_assoc]

theorem MyFn_eq (sep : String) (hsep : sep = ";") (args : List Value) (cout : Sink) :
    MyFn args cout = cout ++ String.join (args.map fun v => v.render ++ sep) ++ "\n" := by
  subst hsep
  induction args generalizing cout with
  | nil => simp [MyFn, endl, String.join]
  | cons value param ih =>
    rw [MyFn, ih, MyFnImpl_eq, List.map_cons, join_cons]
    simp only [String.append_assoc]

theorem MyFn_lineOf (args : List Value) (cout : Sink) :
    MyFn args cout = cout ++ lineOf args := by
  rw [MyFn_eq ";" rfl, lineOf, String.append_assoc]

theorem foldl_render (args : List Value) (cout : Sink) :
    args.foldl (fun os a => os ++ a.render) cout
      = cout ++ String.join (args.map Value.render) := by
  induction args generalizing cout with
  | nil => simp [String.join]
  | cons a rest ih =>
    rw [List.foldl_cons, ih, List.map_cons, join_cons, String.append_assoc]

theorem Expando_eq (args : List Value) (cout : Sink) :
    Expando args cout = cout ++ String.join (args.map Value.render) ++ "\n" := by
  rw [Expando, foldl_render, endl]



/-! ## No rendering of a number holds a line terminator -/

theorem digitChar_ne_newline (k : Nat) : Nat.digitChar k ≠ '\n' := by
  by_cases hk : k < 16
  · interval_cases k <;> decide
  · unfold Nat.digitChar
    iterate 16 rw [if_neg (by omega)]
    decide

theorem toDigitsCore_no_newline (b : Nat) (fuel : Nat) :
    ∀ (n : Nat) (acc : List Char), '\n' ∉ acc → '\n' ∉ Nat.toDigitsCore b fuel n acc := by
  induction fuel with
  | zero => intro n acc h; simpa [Nat.toDigitsCore] using h
  | succ fuel ih =>
    intro n acc h
    have hd : '\n' ∉ Nat.digitChar (n % b) :: acc := by
      simp only [List.mem_cons, not_or]
      exact ⟨fun e => digitChar_ne_newline _ e.symm, h⟩
    rw [Nat.toDigitsCore]
    split
    · exact hd
    · exact ih _ _ hd

theorem toDigits_no_newline (b n : Nat) : '\n' ∉ Nat.toDigits b n := by
  unfold Nat.toDigits
  exact toDigitsCore_no_newline b _ _ _ (by simp)

theorem stripZeros_no_newline (ds : List Char) (h : '\n' ∉ ds) : '\n' ∉ stripZeros ds := by
  intro hm
  unfold stripZeros at hm
  rw [List.mem_reverse] at hm
  have := (List.dropWhile_sublist _).subset hm
  exact h (List.mem_reverse.mp this)

theorem withFraction_no_newline (ip fr : List Char) (h1 : '\n' ∉ ip) (h2 : '\n' ∉ fr) :
    '\n' ∉ withFraction ip fr := by
  unfold withFraction
  split
  · exact h1
  · simp only [List.mem_append, List.mem_cons, not_or]
    exact ⟨h1, by decide, stripZeros_no_newline fr h2⟩

theorem fmtG_no_newline (num den : Nat) : '\n' ∉ fmtG num den := by
  have hd : ∀ k, '\n' ∉ Nat.toDigits 10 k := toDigits_no_newline 10
  have htake : ∀ k j, '\n' ∉ (Nat.toDigits 10 k).take j :=
    fun k j hm => hd k (List.mem_of_mem_take hm)
  have hdrop : ∀ k j, '\n' ∉ (Nat.toDigits 10 k).drop j :=
    fun k j hm => hd k (List.mem_of_mem_drop hm)
  unfold fmtG
  simp only []
  split
  · split
    · exact withFraction_no_newline _ _ (htake _ _) (hdrop _ _)
    · apply withFraction_no_newline _ _ (by decide)
      simp only [List.mem_append, not_or]
      refine ⟨?_, hd _⟩
      intro hm
      exact absurd (List.eq_of_mem_replicate hm) (by decide)
  · simp only [List.mem_append, List.mem_cons, not_or]
    refine ⟨withFraction_no_newline _ _ (htake _ _) (hdrop _ _), by decide, ?_, ?_⟩
    · split <;> decide
    · split
      · simp only [List.mem_cons, not_or]
        exact ⟨by decide, hd _⟩
      · exact hd _

theorem signText_no_newline (neg : Bool) : '\n' ∉ (signText neg).data := by
  cases neg <;> decide

theorem Double_render_no_newline (d : Double) : '\n' ∉ d.render.data := by
  cases d with
  | finite neg m e =>
    simp only [Double.render]
    split
    · simp only [String.data_append, List.mem_append, not_or]
      exact ⟨signText_no_newline neg, by decide⟩
    · split <;>
      · simp only [String.data_append, List.mem_append, not_or]
        exact ⟨signText_no_newline neg, fmtG_no_newline _ _⟩
  | inf neg =>
    simp only [Double.render, String.data_append, List.mem_append, not_or]
    exact ⟨signText_no_newline neg, by decide⟩
  | nan neg =>
    simp only [Double.render, String.data_append, List.mem_append, not_or]
    exact ⟨signText_no_newline neg, by decide⟩

theorem intText_no_newline (n : Int) : '\n' ∉ (intText n).data := by
  cases n with
  | ofNat n => exact toDigits_no_newline 10 n
  | negSucc n =>
    simp only [intText, String.data_append, List.mem_append, not_or]
    exact ⟨by decide, toDigits_no_newline 10 _⟩

theorem plain_render_no_newline (v : Value) (h : v.plain = true) : '\n' ∉ v.render.data := by
  cases v with
  | int n => exact intText_no_newline n
  | double d => exact Double_render_no_newline d
  | char c =>
    simp only [Value.plain, bne_iff_ne, ne_eq] at h
    show '\n' ∉ [c]
    simp only [List.mem_singleton]
    exact fun e => h e.symm
  | cstr s => simpa [Value.plain, Value.render] using h
  | string s => simpa [Value.plain, Value.render] using h

theorem lineOf_oneLine (args : List Value) (h : ∀ v ∈ args, v.plain = true) :
    OneLine (lineOf args) := by
  have hbody : '\n' ∉ (String.join (args.map fun v => v.render ++ ";")).data := by
    rw [String.data_join]
    simp only [List.mem_flatten, List.mem_map, not_exists, not_and]
    rintro l ⟨s, ⟨v, hv, rfl⟩, rfl⟩
    simp only [String.data_append, List.mem_append, not_or]
    exact ⟨plain_render_no_newline v (h v hv), by decide⟩
  unfold OneLine lineOf
  rw [String.data_append]
  constructor
  · rw [List.count_append, List.count_eq_zero_of_not_mem hbody]
    decide
  · simp

/-! ## The claims -/

/-- C1: there is one fixed separator, the string ";", such that for every
argument list and every prior sink one call of `MyFn` appends the renderings of
the values in argument order, each rendered once and followed by the separator,
and the line terminator after all of them. -/
theorem MyFn_writes_values_in_order :
    ∃ sep : String, sep = ";" ∧ ∀ (args : List Value) (cout : Sink),
      MyFn args cout = cout ++ String.join (args.map fun v => v.render ++ sep) ++ "\n" :=
  ⟨";", rfl, MyFn_eq ";" rfl⟩

/-- C2: called with no argument, `MyFn` appends the line terminator and nothing
else: no rendered value and no separator. -/
theorem MyFn_no_arguments (cout : Sink) : MyFn [] cout = cout ++ "\n" := by
  rw [MyFn, endl]

/-- C3, as stated, fails: `MyFn(2, 3.14, "Four")` on an empty sink does not
write the text with a blank after each semicolon. -/
theorem MyFn_2_314_Four_not_spaced :
    MyFn [.int 2, .double lit_3_14, .cstr "Four"] "" ≠ "2; 3.14; Four; \n" := by
  decide

/-- C3, amended: `MyFn(2, 3.14, "Four")` appends the line `2;3.14;Four;` and a
newline: the values in input order, each followed by the separator ";". -/
theorem MyFn_2_314_Four (cout : Sink) :
    MyFn [.int 2, .double lit_3_14, .cstr "Four"] cout = cout ++ "2;3.14;Four;\n" := by
  rw [MyFn_lineOf]
  congr 1

/-- C4, as stated, fails: `MyFn("Hello", ' ', "World")` on an empty sink does
not write two blanks between the first and the second semicolon. -/
theorem MyFn_Hello_World_not_two_blanks :
    MyFn [.cstr "Hello", .char ' ', .cstr "World"] "" ≠ "Hello;  ;World;\n" := by
  decide

/-- C4, amended: `MyFn("Hello", ' ', "World")` renders every value and appends
the line `Hello; ;World;` (one blank, the rendered character, between the first
and the second semicolon) and a newline. -/
theorem MyFn_Hello_World (cout : Sink) :
    MyFn [.cstr "Hello", .char ' ', .cstr "World"] cout = cout ++ "Hello; ;World;\n" := by
  rw [MyFn_lineOf]
  congr 1

/-- C5, as stated, fails: a string or a character holding a newline makes one
call of `MyFn` append more than one line. -/
theorem MyFn_newline_value_two_lines :
    (MyFn [.cstr "a\nb"] "" = "a\nb;\n" ∧ ¬ OneLine "a\nb;\n") ∧
    (MyFn [.char '\n'] "" = "\n;\n" ∧ ¬ OneLine "\n;\n") := by
  decide

/-- C5, amended: when no string or character argument holds a newline (values
of type `int` and `double` never do), one call of `MyFn` appends exactly one
line: a text with exactly one line terminator, which is its last character. -/
theorem MyFn_one_line (args : List Value) (cout : Sink)
    (h : ∀ v ∈ args, v.plain = true) :
    ∃ t : String, MyFn args cout = cout ++ t ∧ OneLine t :=
  ⟨lineOf args, MyFn_lineOf args cout, lineOf_oneLine args h⟩

/-- The amended C5 at the call `MyFn(2, 3.14, "Four")` on an empty sink. -/
theorem MyFn_one_line_witness :
    (∀ v ∈ [Value.int 2, .double lit_3_14, .cstr "Four"], v.plain = true) ∧
    ∃ t : String, MyFn [.int 2, .double lit_3_14, .cstr "Four"] "" = "" ++ t ∧ OneLine t :=
  ⟨by decide, MyFn_one_line _ _ (by decide)⟩

/-- C6: the text a call of `MyFn` appends is a function of the arguments alone:
whatever the sink held before, two calls in a row with the same arguments
append the same line twice; so the two calls of `VariadicFun`, run twice as in
`main`, append the same two lines twice. -/
theorem MyFn_same_arguments_same_line :
    ∃ line : List Value → String,
      (∀ (args : List Value) (cout : Sink),
        MyFn args cout = cout ++ line args ∧
        MyFn args (MyFn args cout) = cout ++ line args ++ line args) ∧
      (∀ cout : Sink, ∃ t : String,
        VariadicFun cout = cout ++ t ∧ VariadicFun (VariadicFun cout) = cout ++ t ++ t) := by
  refine ⟨lineOf, fun args cout => ⟨MyFn_lineOf args cout, ?_⟩, fun cout => ?_⟩
  · rw [MyFn_lineOf, MyFn_lineOf]
  · refine ⟨lineOf [.int 2, .double lit_3_14, .cstr "Four"] ++
      lineOf [.cstr "Hello", .char ' ', .cstr "World"], ?_, ?_⟩ <;>
    simp only [VariadicFun, MyFn_lineOf, String.append_assoc]

/-- C7: `MyFn` only appends: for every prior sink `cout` and every argument
list the sink after the call is `cout ++ t` for some text `t`, so what was
written before stays, unchanged, at the front. The call takes its arguments by
value and gives back nothing but the sink. -/
theorem MyFn_appends_only (args : List Value) (cout : Sink) :
    (∃ t : String, MyFn args cout = cout ++ t) ∧
    cout.data <+: (MyFn args cout).data := by
  refine ⟨⟨lineOf args, MyFn_lineOf args cout⟩, ?_⟩
  rw [MyFn_lineOf, String.data_append]
  exact List.prefix_append _ _

/-- C8: `Expando` writes the renderings `MyFn` writes, in the same order,
without the separator after each value, and then the newline; so
`Expando("Sum: ", 1, " + ", 2, " = ", 3)` writes `Sum: 1 + 2 = 3` and a
newline, and `Expando()` writes the newline only. -/
theorem Expando_is_MyFn_without_separator :
    (∀ (args : List Value) (cout : Sink),
      Expando args cout = cout ++ String.join (args.map Value.render) ++ "\n" ∧
      MyFn args cout
        = cout ++ String.join (args.map fun v => v.render ++ ";") ++ "\n") ∧
    (∀ cout : Sink,
      Expando [.cstr "Sum: ", .int 1, .cstr " + ", .int 2, .cstr " = ", .int 3] cout
        = cout ++ "Sum: 1 + 2 = 3\n") ∧
    (∀ cout : Sink, Expando [] cout = cout ++ "\n") := by
  refine ⟨fun args cout => ⟨Expando_eq args cout, MyFn_eq ";" rfl args cout⟩,
    fun cout => ?_, fun cout => ?_⟩
  · rw [Expando_eq, String.append_assoc]
    congr 1
  · rw [Expando_eq, String.append_assoc]
    congr 1

/-- C9: `std::apply(print, t)` is the call of `print` on the elements of `t` in
positional order, and its output is the three renderings with ", " between
them and a newline at the end, also when the third element is a `const char*`
that the call converts to a `std::string`; `tupple_apply` writes
`42, 3.14, hello` and a newline. -/
theorem apply_print_tuple :
    (∀ (a : Int) (b : Double) (c : String) (cout : Sink),
      apply print (a, b, c) cout = print a b c cout ∧
      apply print (a, b, c) cout
        = cout ++ (Value.int a).render ++ ", " ++ (Value.double b).render ++ ", "
            ++ (Value.string c).render ++ "\n" ∧
      apply (fun x y z => print x y (cText z)) (a, b, c) cout
        = cout ++ (Value.int a).render ++ ", " ++ (Value.double b).render ++ ", "
            ++ (Value.cstr c).render ++ "\n") ∧
    (∀ cout : Sink, tupple_apply cout = cout ++ "42, 3.14, hello\n") := by
  refine ⟨fun a b c cout => ⟨rfl, rfl, rfl⟩, fun cout => ?_⟩
  simp only [tupple_apply, apply, print, String.append_assoc]
  congr 1

/-- C10: `VarArg(i_t, i_p...)` returns `i_t`, appends the line that
`MyFn(i_t, i_p...)` appends, stores `(i_t, i_p...)` in `m_tp` and leaves `m_t`
as the constructor set it; `VariadicTemplate` prints `1;hello;` and a newline,
and its call of `VarArg` returns 1, not the 0 given to the constructor. -/
theorem VarArg_returns_first_and_prints :
    (∀ (self : CVarTem) (i_t : Value) (i_p : List Value) (cout : Sink),
      (self.VarArg i_t i_p cout).1 = i_t ∧
      (self.VarArg i_t i_p cout).2.2 = MyFn (i_t :: i_p) cout ∧
      (self.VarArg i_t i_p cout).2.2 = cout ++ lineOf (i_t :: i_p) ∧
      (self.VarArg i_t i_p cout).2.1.m_tp = i_t :: i_p ∧
      (self.VarArg i_t i_p cout).2.1.m_t = self.m_t) ∧
    (∀ cout : Sink, VariadicTemplate cout = cout ++ "1;hello;\n") ∧
    (∀ cout : Sink,
      ((CVarTem.ctor [.int 0, .string ""] (.int 0)).VarArg (.int 1) [.string "hello"] cout).1
        = .int 1 ∧
      (CVarTem.ctor [.int 0, .string ""] (.int 0)).m_t = .int 0 ∧
      Value.int 1 ≠ Value.int 0) := by
  refine ⟨fun self i_t i_p cout => ⟨rfl, rfl, MyFn_lineOf _ _, rfl, rfl⟩,
    fun cout => ?_, fun cout => ⟨rfl, rfl, by decide⟩⟩
  simp only [VariadicTemplate, CVarTem.VarArg, MyFn_lineOf]
  congr 1

end C11Lang
